import Mathlib

/-!
Verification development for the Glance repository: shallow embeddings of
the e-paper bring-up scripts (`epaper_test.py`, `simple_test.py`,
`display_diagnostic.py`) and of the flag fetching utility
(`fetch_flags.py`), with theorems checking the natural-language
specification against the code.
-/

namespace EpaperTest

/-! Constants of `epaper_test.py` (lines 14-21). -/

def RST_PIN : Nat := 17

def DC_PIN : Nat := 25

def CS_PIN : Nat := 8

def BUSY_PIN : Nat := 24

def EPD_WIDTH : Nat := 1600

def EPD_HEIGHT : Nat := 1200

/-- Bus-level operations performed by the `EPD_13in3_Spectra6` class:
a hardware reset pulse (`_reset`), a command byte (`_send_command`),
a data byte (`_send_data`), and a busy wait (`_wait_until_idle`,
recorded with its timeout in seconds). -/
inductive Op where
  | reset : Op
  | cmd : Nat → Op
  | dat : Nat → Op
  | wait : Nat → Op
deriving DecidableEq, Repr

/-- `rect_height = EPD_HEIGHT // 6` in `draw_test_pattern`. -/
def rect_height : Nat := EPD_HEIGHT / 6

/-- Stripe color chosen by the first-transmission loop of
`draw_test_pattern` (lines 155-168): the if/elif chain on `y`. -/
def colorPlane1 (y : Nat) : Nat :=
  if y < rect_height then 0x0
  else if y < rect_height * 2 then 0x1
  else if y < rect_height * 3 then 0x2
  else if y < rect_height * 4 then 0x3
  else if y < rect_height * 5 then 0x4
  else 0x5

/-- Stripe color chosen by the second-transmission loop of
`draw_test_pattern` (lines 185-197); the source duplicates the chain. -/
def colorPlane2 (y : Nat) : Nat :=
  if y < rect_height then 0x0
  else if y < rect_height * 2 then 0x1
  else if y < rect_height * 3 then 0x2
  else if y < rect_height * 4 then 0x3
  else if y < rect_height * 5 then 0x4
  else 0x5

/-- The byte `pixel_data` built by the inner `for p in range(4)` loop of the
first transmission: starting from 0, OR in `color << (6 - p * 2)` for
`p = 0, 1, 2, 3`. -/
def packedBytePlane1 (y : Nat) : Nat :=
  (List.range 4).foldl (fun pd p => pd ||| (colorPlane1 y <<< (6 - p * 2))) 0

/-- The byte `pixel_data` built by the inner loop of the second
transmission. -/
def packedBytePlane2 (y : Nat) : Nat :=
  (List.range 4).foldl (fun pd p => pd ||| (colorPlane2 y <<< (6 - p * 2))) 0

/-- All bytes sent after command 0x10 by `draw_test_pattern`: for each row
`y`, the x-loop runs `EPD_WIDTH / 4` times and sends the same packed byte. -/
def plane1Bytes : List Nat :=
  (List.range EPD_HEIGHT).flatMap fun y =>
    List.replicate (EPD_WIDTH / 4) (packedBytePlane1 y)

/-- All bytes sent after command 0x13 by `draw_test_pattern`. -/
def plane2Bytes : List Nat :=
  (List.range EPD_HEIGHT).flatMap fun y =>
    List.replicate (EPD_WIDTH / 4) (packedBytePlane2 y)

/-- Loop body of `_wait_until_idle`: at iteration `k` the BUSY pin is read
(`readings k = true` models `GPIO.HIGH`); a non-HIGH read returns `True`
at once; otherwise the loop sleeps 0.1 s and gives up when the elapsed
time exceeds the timeout.  `fuel` is the number of 0.1 s sleeps still
allowed before the elapsed time exceeds the timeout. -/
def waitGo (readings : Nat → Bool) (k fuel : Nat) : Bool :=
  if readings k = false then true
  else
    match fuel with
    | 0 => false
    | f + 1 => waitGo readings (k + 1) f

/-- `_wait_until_idle(timeout_seconds)` (lines 45-57), with each loop
iteration taking one 0.1 s sleep, so `10 * timeoutSeconds` sleeps fit in
the timeout. -/
def waitUntilIdle (readings : Nat → Bool) (timeoutSeconds : Nat) : Bool :=
  waitGo readings 0 (10 * timeoutSeconds)

/-- Operations of `init` (lines 59-105).  The argument records whether the
busy wait after the power-on command reported idle; when it does not,
`init` returns early and the remaining commands are never sent. -/
def initOps (powerOnIdle : Bool) : List Op :=
  [Op.reset, Op.cmd 0x04, Op.wait 10] ++
    (if powerOnIdle then
      [Op.cmd 0x00, Op.dat 0x2f, Op.dat 0x00,
       Op.cmd 0x61, Op.dat (EPD_WIDTH >>> 8), Op.dat (EPD_WIDTH &&& 0xff),
       Op.dat (EPD_HEIGHT >>> 8), Op.dat (EPD_HEIGHT &&& 0xff)]
    else [])

/-- Operations of `_refresh` (lines 209-220). -/
def refreshOps : List Op := [Op.cmd 0x12, Op.wait 45]

/-- Operations of `clear` (lines 116-138): `total_pixels = W * H // 4`
white bytes after each of the two transmission commands, then a refresh. -/
def clearOps : List Op :=
  Op.cmd 0x10 :: List.replicate (EPD_WIDTH * EPD_HEIGHT / 4) (Op.dat 0x11)
    ++ Op.cmd 0x13 :: List.replicate (EPD_WIDTH * EPD_HEIGHT / 4) (Op.dat 0x11)
    ++ refreshOps

/-- Operations of `draw_test_pattern` (lines 140-207). -/
def drawOps : List Op :=
  Op.cmd 0x10 :: plane1Bytes.map Op.dat
    ++ Op.cmd 0x13 :: plane2Bytes.map Op.dat
    ++ refreshOps

/-- Operations of `sleep` (lines 222-229). -/
def sleepOps : List Op := [Op.cmd 0x02, Op.wait 5, Op.cmd 0x07, Op.dat 0xA5]

/-- A successful driver run through the command-issuing methods the spec
describes: `init` (with the power-on wait reporting idle), `clear`
(which ends in a refresh), then `sleep`. -/
def runOps (powerOnIdle : Bool) : List Op :=
  initOps powerOnIdle ++ clearOps ++ sleepOps

/-- The command byte of an operation, if it is a command. -/
def cmdOf : Op → Option Nat
  | Op.reset => none
  | Op.cmd b => some b
  | Op.dat _ => none
  | Op.wait _ => none

/-- The display commands issued by a list of operations, in order. -/
def commandsOf (ops : List Op) : List Nat := ops.filterMap cmdOf

/-- Pin-level events: a GPIO write (`true` models `GPIO.HIGH`) and one SPI
byte transfer (`_spi_transfer`). -/
inductive Ev where
  | gpio : Nat → Bool → Ev
  | spiByte : Nat → Ev
deriving DecidableEq, Repr

/-- Pin-level elaboration of each operation: `_send_command` drives DC low
then transfers the byte (lines 34-38); `_send_data` drives DC high then
transfers the byte (lines 40-43); `_reset` pulses RST (lines 107-114). -/
def opEvents : Op → List Ev
  | Op.reset => [Ev.gpio RST_PIN true, Ev.gpio RST_PIN false, Ev.gpio RST_PIN true]
  | Op.cmd b => [Ev.gpio DC_PIN false, Ev.spiByte b]
  | Op.dat b => [Ev.gpio DC_PIN true, Ev.spiByte b]
  | Op.wait _ => []

/-- Replay a pin-level event list, tracking the DC line, and log each SPI
byte together with the DC level at the moment it is transferred. -/
def spiLog (dc : Bool) : List Ev → List (Bool × Nat)
  | [] => []
  | Ev.gpio p lv :: rest => spiLog (if p = DC_PIN then lv else dc) rest
  | Ev.spiByte b :: rest => (dc, b) :: spiLog dc rest

/-- The DC level each operation is supposed to transfer its byte at:
low for commands, high for data. -/
def opLog : Op → List (Bool × Nat)
  | Op.reset => []
  | Op.cmd b => [(false, b)]
  | Op.dat b => [(true, b)]
  | Op.wait _ => []

end EpaperTest

namespace SimpleTest

/-! Constants of `simple_test.py` (lines 13-17). -/

def RST_PIN : Nat := 11

def DC_PIN : Nat := 22

def CS_M_PIN : Nat := 24

def CS_S_PIN : Nat := 26

def BUSY_PIN : Nat := 18

end SimpleTest

namespace DisplayDiagnostic

/-! Constants of `display_diagnostic.py` (lines 13-15). -/

def RST_PIN : Nat := 17

def DC_PIN : Nat := 25

def BUSY_PIN : Nat := 24

end DisplayDiagnostic

namespace FetchFlags

/-! Model of `fetch_flags.py`. -/

def screen_width : Nat := 800

def screen_height : Nat := 480

/-- An image as the cache check of `fetch_and_save_flags` observes it:
its dimensions and the number of its pixels that differ from the white
background `(255, 255, 255)` (the `non_background_pixels` count of
lines 70-72). -/
structure BmpImage where
  width : Nat
  height : Nat
  nonWhite : Nat
deriving DecidableEq, Repr

/-- State of `server/flags/<country_id>.bmp` on disk when a country is
processed: absent, present but unreadable (opening or reading it raises,
line 79), or present and readable. -/
inductive CacheState where
  | missing : CacheState
  | unreadable : CacheState
  | cached : BmpImage → CacheState
deriving DecidableEq, Repr

/-- The `flag_needs_update` flag computed by lines 54-83: update when the
file is missing or unreadable, when the resolution differs from
800x480, or when fewer than half of the pixels differ from the white
background.  The source compares `non_background_pixels / (width * height)
< 0.5` in floating point; at this branch `width * height = 384000`, whose
quotients are far enough from 0.5 that the comparison agrees with the
exact rational one, modelled here as `2 * nonWhite < width * height`. -/
def flagNeedsUpdate : CacheState → Bool
  | CacheState.missing => true
  | CacheState.unreadable => true
  | CacheState.cached img =>
    if img.width ≠ screen_width ∨ img.height ≠ screen_height then true
    else if 2 * img.nonWhite < img.width * img.height then true
    else false

/-- The cache-refresh condition as the specification words it: the cached
BMP does not exist, cannot be opened, has a size other than 800x480, or
has fewer than half of its pixels differing from white. -/
def flagNeedsUpdateSpec : CacheState → Bool
  | CacheState.missing => true
  | CacheState.unreadable => true
  | CacheState.cached img =>
    decide (img.width ≠ 800 ∨ img.height ≠ 480 ∨
      img.nonWhite < img.width * img.height / 2)

/-- Where processing a single country raises, if anywhere: while extracting
the API fields (before the cache check), while downloading or decoding the
flag, while saving the BMP, while writing the metadata JSON, or nowhere.
The point is only reached if the corresponding code runs; a country whose
flag is cached never reaches the download or BMP-save steps. -/
inductive FailAt where
  | atExtract : FailAt
  | atFetch : FailAt
  | atSaveBmp : FailAt
  | atWriteJson : FailAt
  | never : FailAt
deriving DecidableEq, Repr

/-- One country as the per-country loop body sees it: its derived
`country_id`, the state of its cached flag file, and where (if anywhere)
processing it raises. -/
structure Country where
  id : String
  cache : CacheState
  failAt : FailAt
deriving DecidableEq, Repr

/-- Observable effects of `fetch_and_save_flags`: the flag HTTP request
(line 88), saving `server/flags/<id>.bmp` (line 107), writing
`server/info/<id>.json` (lines 123-125), and writing
`server/info/index.json` with its entry list (lines 133-135). -/
inductive Ev where
  | fetchFlag : String → Ev
  | writeBmp : String → Ev
  | writeJson : String → Ev
  | writeIndex : List String → Ev
deriving DecidableEq, Repr

/-- The per-country iteration (lines 32-131): the events it performs and
the entry it appends to `index_data` (line 127), `none` when the `except`
at line 130 caught an exception first. -/
def processCountry (c : Country) : List Ev × Option String :=
  if c.failAt = FailAt.atExtract then ([], none)
  else if flagNeedsUpdate c.cache then
    if c.failAt = FailAt.atFetch then ([Ev.fetchFlag c.id], none)
    else if c.failAt = FailAt.atSaveBmp then ([Ev.fetchFlag c.id], none)
    else if c.failAt = FailAt.atWriteJson then
      ([Ev.fetchFlag c.id, Ev.writeBmp c.id], none)
    else
      ([Ev.fetchFlag c.id, Ev.writeBmp c.id, Ev.writeJson c.id],
        some (c.id ++ ".json"))
  else
    if c.failAt = FailAt.atWriteJson then ([], none)
    else ([Ev.writeJson c.id], some (c.id ++ ".json"))

/-- Whether the loop body for `c` raises (and is caught at line 130). -/
def raisesOn (c : Country) : Bool :=
  match c.failAt with
  | FailAt.atExtract => true
  | FailAt.atWriteJson => true
  | FailAt.atFetch => flagNeedsUpdate c.cache
  | FailAt.atSaveBmp => flagNeedsUpdate c.cache
  | FailAt.never => false

/-- The `index_data` list accumulated over the loop, in API order. -/
def successEntries (countries : List Country) : List String :=
  countries.filterMap fun c => (processCountry c).2

/-- The whole of `fetch_and_save_flags` after the country list is fetched:
process each country in API order, then write `index.json` once at the
end. -/
def runFetch (countries : List Country) : List Ev :=
  (countries.flatMap fun c => (processCountry c).1)
    ++ [Ev.writeIndex (successEntries countries)]

/-- The country a file-touching event belongs to (`writeIndex` touches the
shared index instead). -/
def evId : Ev → Option String
  | Ev.fetchFlag i => some i
  | Ev.writeBmp i => some i
  | Ev.writeJson i => some i
  | Ev.writeIndex _ => none

/-- Dimension computation of PIL `Image.thumbnail`, rounding branch where
the height is kept: the candidate width is `p / q` rounded to the integer
minimizing the aspect error (ties choose the floor), clamped to at least
one. -/
def roundAspectH (p q : Nat) : Nat :=
  let f := p / q
  let c := (p + q - 1) / q
  max (if p - f * q ≤ c * q - p then f else c) 1

/-- Dimension computation of PIL `Image.thumbnail`, rounding branch where
the width is kept; the aspect-error comparison here has the candidate in
the denominator, hence the cross-multiplied condition. -/
def roundAspectW (p q : Nat) : Nat :=
  let f := p / q
  let c := (p + q - 1) / q
  max (if (p - f * q) * c ≤ (c * q - p) * f then f else c) 1

/-- PIL `Image.thumbnail` size computation, in exact rational arithmetic:
an image already fitting in the box is left alone; otherwise the binding
dimension is kept and the other is rounded preserving the aspect ratio.
`img.thumbnail((screen_width, screen_height), Image.LANCZOS)` at line 101
calls this with the 800x480 box. -/
def thumbnailDims (w h bw bh : Nat) : Nat × Nat :=
  if w ≤ bw ∧ h ≤ bh then (w, h)
  else if bw * h ≥ w * bh then (roundAspectH (bh * w) h, bh)
  else (bw, roundAspectW (bw * h) w)

/-- Result of the flag rendering pipeline of lines 101-107: thumbnail to
fit 800x480, create a fresh white canvas of exactly 800x480, paste the
thumbnail at the centered offsets, save the canvas. -/
structure Render where
  thumbW : Nat
  thumbH : Nat
  canvasW : Nat
  canvasH : Nat
  x_offset : Nat
  y_offset : Nat
deriving DecidableEq, Repr

/-- The rendering pipeline applied to a source flag image of size
`w` by `h`. -/
def renderFlag (w h : Nat) : Render :=
  let t := thumbnailDims w h screen_width screen_height
  { thumbW := t.1
    thumbH := t.2
    canvasW := screen_width
    canvasH := screen_height
    x_offset := (screen_width - t.1) / 2
    y_offset := (screen_height - t.2) / 2 }

end FetchFlags

/-!  Theorems checking the claims.  -/

/-- C8: the scripts assign conflicting pin numbers to the same display
roles: `epaper_test.py` and `display_diagnostic.py` use RST=17, DC=25,
BUSY=24 while `simple_test.py` uses RST=11, DC=22, BUSY=18, so each of the
three roles gets a different pin in `simple_test.py` than in
`epaper_test.py`. -/
theorem pin_assignments_conflict :
    (EpaperTest.RST_PIN = 17 ∧ EpaperTest.DC_PIN = 25 ∧ EpaperTest.BUSY_PIN = 24)
  ∧ (DisplayDiagnostic.RST_PIN = 17 ∧ DisplayDiagnostic.DC_PIN = 25 ∧
      DisplayDiagnostic.BUSY_PIN = 24)
  ∧ (SimpleTest.RST_PIN = 11 ∧ SimpleTest.DC_PIN = 22 ∧ SimpleTest.BUSY_PIN = 18)
  ∧ SimpleTest.RST_PIN ≠ EpaperTest.RST_PIN
  ∧ SimpleTest.DC_PIN ≠ EpaperTest.DC_PIN
  ∧ SimpleTest.BUSY_PIN ≠ EpaperTest.BUSY_PIN := by decide

/-- Closed form of the color chain of the first transmission: six stripes
of 200 rows, capped at code 5. -/
theorem colorPlane1_eq_min (y : Nat) :
    EpaperTest.colorPlane1 y = min (y / 200) 5 := by
  unfold EpaperTest.colorPlane1 EpaperTest.rect_height EpaperTest.EPD_HEIGHT
  split_ifs <;> omega

/-- The duplicated color chain of the second transmission agrees with the
first. -/
theorem colorPlane2_eq_colorPlane1 (y : Nat) :
    EpaperTest.colorPlane2 y = EpaperTest.colorPlane1 y := rfl

/-- Unrolling the `for p in range(4)` accumulation of `pixel_data`. -/
theorem packedBytePlane1_eq (y : Nat) :
    EpaperTest.packedBytePlane1 y =
      ((EpaperTest.colorPlane1 y <<< 6) ||| (EpaperTest.colorPlane1 y <<< 4) |||
        (EpaperTest.colorPlane1 y <<< 2) ||| EpaperTest.colorPlane1 y) := by
  show List.foldl _ 0 (List.range 4) = _
  norm_num [List.range_succ, Nat.shiftLeft_zero, Nat.zero_or]

/-- C1 counterexample: at row 800 (the blue stripe) the color code is 0x4,
which does not fit in 2 bits; the packed byte is 340, pixel 0's 2-bit slot
(bits 6-7) reads back 1 instead of the color code, and the byte exceeds
255, so the color codes do not each occupy only their own 2-bit slot. -/
theorem draw_pack_two_bit_claim_false :
    EpaperTest.colorPlane1 800 = 4
  ∧ ¬ EpaperTest.colorPlane1 800 < 4
  ∧ EpaperTest.packedBytePlane1 800 = 340
  ∧ (EpaperTest.packedBytePlane1 800 >>> 6) % 4 ≠ EpaperTest.colorPlane1 800
  ∧ 255 < EpaperTest.packedBytePlane1 800 := by decide

/-- C1 (amended): every byte built by `draw_test_pattern` equals the
bitwise OR over p = 0..3 of `color(y) << (6 - 2 p)`; for rows of the top
four stripes (codes 0x0-0x3, y < 800) each code fits in 2 bits, the byte
fits in 8 bits and every pixel's 2-bit slot reads back exactly its code,
but for the blue and green stripes (codes 0x4 and 0x5, y >= 800) the code
needs 3 bits, pixel 0's slot no longer holds its code and the byte
exceeds 255. -/
theorem draw_pack_amended (y : Nat) (hy : y < EpaperTest.EPD_HEIGHT) :
    EpaperTest.packedBytePlane1 y =
      ((EpaperTest.colorPlane1 y <<< 6) ||| (EpaperTest.colorPlane1 y <<< 4) |||
        (EpaperTest.colorPlane1 y <<< 2) ||| EpaperTest.colorPlane1 y)
  ∧ (y < 800 →
      EpaperTest.colorPlane1 y < 4 ∧ EpaperTest.packedBytePlane1 y < 256 ∧
        ∀ p, p < 4 →
          (EpaperTest.packedBytePlane1 y >>> (6 - 2 * p)) % 4 =
            EpaperTest.colorPlane1 y)
  ∧ (800 ≤ y →
      4 ≤ EpaperTest.colorPlane1 y ∧
        (EpaperTest.packedBytePlane1 y >>> 6) % 4 ≠ EpaperTest.colorPlane1 y ∧
        255 < EpaperTest.packedBytePlane1 y) := by
  have hy2 : y < 1200 := hy
  have hcol := colorPlane1_eq_min y
  have hpack := packedBytePlane1_eq y
  refine ⟨hpack, ?_, ?_⟩
  · intro h800
    have hc4 : EpaperTest.colorPlane1 y < 4 := by omega
    refine ⟨hc4, ?_, ?_⟩
    · rw [hpack]
      generalize EpaperTest.colorPlane1 y = c at hc4 ⊢
      interval_cases c <;> decide
    · intro p hp
      rw [hpack]
      generalize EpaperTest.colorPlane1 y = c at hc4 ⊢
      interval_cases c <;> interval_cases p <;> decide
  · intro h800
    have hc : EpaperTest.colorPlane1 y = 4 ∨ EpaperTest.colorPlane1 y = 5 := by
      omega
    rcases hc with h | h <;> rw [hpack, h] <;> decide

/-- C1 witness: the amended theorem applied at row 900. -/
theorem draw_pack_amended_witness :
    255 < EpaperTest.packedBytePlane1 900 :=
  ((draw_pack_amended 900 (by decide)).2.2 (by decide)).2.2

/-- C5: `draw_test_pattern` splits the 1200 rows into six stripes of
height `rect_height = 200`, row `y` getting color code `min (y / 200) 5`
(black, white, red, yellow, blue, green top to bottom), and the second
transmission plane encodes exactly the same bytes as the first. -/
theorem draw_stripes :
    EpaperTest.rect_height = 200
  ∧ (∀ y, y < EpaperTest.EPD_HEIGHT →
      EpaperTest.colorPlane1 y = min (y / 200) 5 ∧
      EpaperTest.colorPlane2 y = EpaperTest.colorPlane1 y)
  ∧ EpaperTest.plane2Bytes = EpaperTest.plane1Bytes := by
  refine ⟨rfl, fun y _ => ⟨colorPlane1_eq_min y, colorPlane2_eq_colorPlane1 y⟩, rfl⟩

/-- C5 witness: the stripe theorem applied at row 500 (red stripe). -/
theorem draw_stripes_witness :
    EpaperTest.colorPlane1 500 = min (500 / 200) 5 :=
  (draw_stripes.2.1 500 (by decide)).1

/-- The empty operation list issues no command. -/
theorem commandsOf_nil : EpaperTest.commandsOf [] = [] := rfl

/-- A leading command byte heads the command list. -/
theorem commandsOf_cons_cmd (b : Nat) (l : List EpaperTest.Op) :
    EpaperTest.commandsOf (EpaperTest.Op.cmd b :: l) =
      b :: EpaperTest.commandsOf l := by
  simp [EpaperTest.commandsOf, EpaperTest.cmdOf]

/-- A leading data byte contributes no command. -/
theorem commandsOf_cons_dat (b : Nat) (l : List EpaperTest.Op) :
    EpaperTest.commandsOf (EpaperTest.Op.dat b :: l) =
      EpaperTest.commandsOf l := by
  simp [EpaperTest.commandsOf, EpaperTest.cmdOf]

/-- A leading busy wait contributes no command. -/
theorem commandsOf_cons_wait (t : Nat) (l : List EpaperTest.Op) :
    EpaperTest.commandsOf (EpaperTest.Op.wait t :: l) =
      EpaperTest.commandsOf l := by
  simp [EpaperTest.commandsOf, EpaperTest.cmdOf]

/-- A leading reset contributes no command. -/
theorem commandsOf_cons_reset (l : List EpaperTest.Op) :
    EpaperTest.commandsOf (EpaperTest.Op.reset :: l) =
      EpaperTest.commandsOf l := by
  simp [EpaperTest.commandsOf, EpaperTest.cmdOf]

/-- A run of data bytes issues no command. -/
theorem commandsOf_replicate_dat (n b : Nat) :
    EpaperTest.commandsOf (List.replicate n (EpaperTest.Op.dat b)) = [] := by
  induction n with
  | zero => rfl
  | succ m ih => rw [List.replicate_succ, commandsOf_cons_dat, ih]

/-- The command list distributes over concatenation of operations. -/
theorem commandsOf_append (a b : List EpaperTest.Op) :
    EpaperTest.commandsOf (a ++ b) =
      EpaperTest.commandsOf a ++ EpaperTest.commandsOf b := by
  simp [EpaperTest.commandsOf]

/-- `clear` issues exactly the two transmission commands and the refresh. -/
theorem commandsOf_clearOps :
    EpaperTest.commandsOf EpaperTest.clearOps = [0x10, 0x13, 0x12] := by
  rw [EpaperTest.clearOps, commandsOf_append, commandsOf_append,
    commandsOf_cons_cmd, commandsOf_replicate_dat, commandsOf_cons_cmd,
    commandsOf_replicate_dat, EpaperTest.refreshOps, commandsOf_cons_cmd,
    commandsOf_cons_wait, commandsOf_nil]
  rfl

/-- C2: on a successful run of the driver (the power-on busy wait
reporting idle), the first operation is the hardware reset and the
display commands issued are exactly 0x04 (power on), 0x00 (panel
setting), 0x61 (resolution), 0x10 and 0x13 (data transmission), 0x12
(refresh), 0x02 (power off) and 0x07 (deep sleep), in this order, the
run ending with the deep-sleep data byte 0xA5. -/
theorem run_command_sequence (powerOnIdle : Bool) (h : powerOnIdle = true) :
    EpaperTest.commandsOf (EpaperTest.runOps powerOnIdle) =
      [0x04, 0x00, 0x61, 0x10, 0x13, 0x12, 0x02, 0x07]
  ∧ (EpaperTest.runOps powerOnIdle).head? = some EpaperTest.Op.reset
  ∧ (EpaperTest.runOps powerOnIdle).getLast? = some (EpaperTest.Op.dat 0xA5) := by
  subst h
  refine ⟨?_, rfl, ?_⟩
  · rw [EpaperTest.runOps, commandsOf_append, commandsOf_append,
      commandsOf_clearOps]
    rfl
  · have hsplit : EpaperTest.runOps true =
        (EpaperTest.initOps true ++ EpaperTest.clearOps ++
          [EpaperTest.Op.cmd 0x02, EpaperTest.Op.wait 5,
            EpaperTest.Op.cmd 0x07]) ++ [EpaperTest.Op.dat 0xA5] := by
      simp [EpaperTest.runOps, EpaperTest.sleepOps]
    rw [hsplit, List.getLast?_concat]

/-- C2 witness: the command-sequence theorem at the successful outcome. -/
theorem run_command_sequence_witness :
    EpaperTest.commandsOf (EpaperTest.runOps true) =
      [0x04, 0x00, 0x61, 0x10, 0x13, 0x12, 0x02, 0x07] :=
  (run_command_sequence true rfl).1

/-- C9: for any sequence of driver operations and any starting DC level,
every byte transferred over SPI goes out with the DC line in the state
its sending method just drove: low for `_send_command` bytes, high for
`_send_data` bytes. -/
theorem dc_line_invariant (dc0 : Bool) (ops : List EpaperTest.Op) :
    EpaperTest.spiLog dc0 (ops.flatMap EpaperTest.opEvents) =
      ops.flatMap EpaperTest.opLog := by
  induction ops generalizing dc0 with
  | nil => rfl
  | cons op rest ih =>
    rw [List.flatMap_cons, List.flatMap_cons]
    cases op with
    | reset =>
      rw [EpaperTest.opEvents, EpaperTest.opLog]
      show EpaperTest.spiLog dc0 (EpaperTest.Ev.gpio EpaperTest.RST_PIN true ::
        EpaperTest.Ev.gpio EpaperTest.RST_PIN false ::
        EpaperTest.Ev.gpio EpaperTest.RST_PIN true ::
        rest.flatMap EpaperTest.opEvents) = _
      rw [EpaperTest.spiLog, EpaperTest.spiLog, EpaperTest.spiLog]
      rw [if_neg (by decide), if_neg (by decide), if_neg (by decide)]
      exact ih dc0
    | wait t =>
      rw [EpaperTest.opEvents, EpaperTest.opLog]
      exact ih dc0
    | cmd b =>
      rw [EpaperTest.opEvents, EpaperTest.opLog]
      show EpaperTest.spiLog dc0 (EpaperTest.Ev.gpio EpaperTest.DC_PIN false ::
        EpaperTest.Ev.spiByte b :: rest.flatMap EpaperTest.opEvents) = _
      rw [EpaperTest.spiLog, if_pos rfl, EpaperTest.spiLog]
      exact congrArg (List.cons (false, b)) (ih false)
    | dat b =>
      rw [EpaperTest.opEvents, EpaperTest.opLog]
      show EpaperTest.spiLog dc0 (EpaperTest.Ev.gpio EpaperTest.DC_PIN true ::
        EpaperTest.Ev.spiByte b :: rest.flatMap EpaperTest.opEvents) = _
      rw [EpaperTest.spiLog, if_pos rfl, EpaperTest.spiLog]
      exact congrArg (List.cons (true, b)) (ih true)

/-- C9 witness: the DC invariant on a concrete command/data pair. -/
theorem dc_line_invariant_witness :
    EpaperTest.spiLog false
        ([EpaperTest.Op.cmd 0x04, EpaperTest.Op.dat 0x11].flatMap
          EpaperTest.opEvents) =
      [(false, 0x04), (true, 0x11)] :=
  (dc_line_invariant false [EpaperTest.Op.cmd 0x04, EpaperTest.Op.dat 0x11]).trans
    (by decide)

/-- The busy loop returns `False` exactly when every reading within the
allowed number of sleeps is HIGH. -/
theorem waitGo_eq_false_iff (readings : Nat → Bool) :
    ∀ fuel k, EpaperTest.waitGo readings k fuel = false ↔
      ∀ j, j ≤ fuel → readings (k + j) = true := by
  intro fuel
  induction fuel with
  | zero =>
    intro k
    rcases Bool.eq_false_or_eq_true (readings k) with h | h <;>
      simp [EpaperTest.waitGo, h, Nat.le_zero]
  | succ f ih =>
    intro k
    rcases Bool.eq_false_or_eq_true (readings k) with h | h
    · have hred : EpaperTest.waitGo readings k (f + 1) =
          EpaperTest.waitGo readings (k + 1) f := by
        rw [EpaperTest.waitGo, h]
        simp
      rw [hred, ih (k + 1)]
      constructor
      · intro hall j hj
        match j, hj with
        | 0, _ => simpa using h
        | i + 1, hj =>
          have := hall i (by omega)
          rwa [show k + 1 + i = k + (i + 1) by omega] at this
      · intro hall j hj
        have := hall (j + 1) (by omega)
        rwa [show k + (j + 1) = k + 1 + j by omega] at this
    · have htrue : EpaperTest.waitGo readings k (f + 1) = true := by
        rw [EpaperTest.waitGo, h]
        simp
      rw [htrue]
      constructor
      · intro hc
        exact absurd hc (by simp)
      · intro hall
        have h0 := hall 0 (by omega)
        rw [Nat.add_zero] at h0
        simp [h0] at h

/-- The busy loop returns `True` exactly when some reading within the
allowed number of sleeps is not HIGH, the loop exiting at the first such
reading. -/
theorem waitGo_eq_true_iff (readings : Nat → Bool) :
    ∀ fuel k, EpaperTest.waitGo readings k fuel = true ↔
      ∃ j, j ≤ fuel ∧ readings (k + j) = false ∧
        ∀ i, i < j → readings (k + i) = true := by
  intro fuel
  induction fuel with
  | zero =>
    intro k
    rcases Bool.eq_false_or_eq_true (readings k) with h | h
    · have hfalse : EpaperTest.waitGo readings k 0 = false := by
        rw [EpaperTest.waitGo, h]
        simp
      rw [hfalse]
      constructor
      · intro hc
        exact absurd hc (by simp)
      · rintro ⟨j, hj, hf, -⟩
        interval_cases j
        rw [Nat.add_zero] at hf
        simp [hf] at h
    · have htrue : EpaperTest.waitGo readings k 0 = true := by
        rw [EpaperTest.waitGo, h]
        simp
      rw [htrue]
      refine iff_of_true rfl
        ⟨0, Nat.le_refl 0, by rwa [Nat.add_zero], fun i hi => absurd hi (by omega)⟩
  | succ f ih =>
    intro k
    rcases Bool.eq_false_or_eq_true (readings k) with h | h
    · have hred : EpaperTest.waitGo readings k (f + 1) =
          EpaperTest.waitGo readings (k + 1) f := by
        rw [EpaperTest.waitGo, h]
        simp
      rw [hred, ih (k + 1)]
      constructor
      · rintro ⟨j, hj, hf, hpre⟩
        refine ⟨j + 1, by omega, ?_, ?_⟩
        · rwa [show k + (j + 1) = k + 1 + j by omega]
        · intro i hi
          match i, hi with
          | 0, _ => simpa using h
          | m + 1, hi =>
            have := hpre m (by omega)
            rwa [show k + 1 + m = k + (m + 1) by omega] at this
      · rintro ⟨j, hj, hf, hpre⟩
        match j, hj with
        | 0, _ =>
          rw [Nat.add_zero] at hf
          simp [hf] at h
        | m + 1, hj =>
          refine ⟨m, by omega, ?_, ?_⟩
          · rwa [show k + 1 + m = k + (m + 1) by omega]
          · intro i hi
            have := hpre (i + 1) (by omega)
            rwa [show k + (i + 1) = k + 1 + i by omega] at this
    · have htrue : EpaperTest.waitGo readings k (f + 1) = true := by
        rw [EpaperTest.waitGo, h]
        simp
      rw [htrue]
      refine iff_of_true rfl
        ⟨0, by omega, by rwa [Nat.add_zero], fun i hi => absurd hi (by omega)⟩

/-- C4: modelling each loop iteration as one 0.1 s sleep (so
`10 * timeout_seconds` sleeps fit in the timeout), `_wait_until_idle`
returns `False` iff the BUSY pin reads HIGH at every poll within the
timeout, and returns `True` iff some poll within the timeout reads
not-HIGH, the loop exiting at the first such poll. -/
theorem wait_until_idle_spec (readings : Nat → Bool) (timeoutSeconds : Nat) :
    (EpaperTest.waitUntilIdle readings timeoutSeconds = false ↔
      ∀ k, k ≤ 10 * timeoutSeconds → readings k = true)
  ∧ (EpaperTest.waitUntilIdle readings timeoutSeconds = true ↔
      ∃ k, k ≤ 10 * timeoutSeconds ∧ readings k = false ∧
        ∀ j, j < k → readings j = true) := by
  constructor
  · have h := waitGo_eq_false_iff readings (10 * timeoutSeconds) 0
    simpa [EpaperTest.waitUntilIdle] using h
  · have h := waitGo_eq_true_iff readings (10 * timeoutSeconds) 0
    simpa [EpaperTest.waitUntilIdle] using h

/-- C4 witness: a pin that stays HIGH for three polls and then drops makes
the wait succeed within a 1 s timeout. -/
theorem wait_until_idle_spec_witness :
    EpaperTest.waitUntilIdle (fun k => decide (k < 3)) 1 = true :=
  (wait_until_idle_spec (fun k => decide (k < 3)) 1).2.mpr
    ⟨3, by omega, by decide, fun j hj => by simpa using hj⟩

/-- The nested cache check of the source computes exactly the
specification's disjunction. -/
theorem flagNeedsUpdate_eq_spec (s : FetchFlags.CacheState) :
    FetchFlags.flagNeedsUpdate s = FetchFlags.flagNeedsUpdateSpec s := by
  cases s with
  | missing => rfl
  | unreadable => rfl
  | cached img =>
    rcases img with ⟨w, hgt, nw⟩
    simp only [FetchFlags.flagNeedsUpdate, FetchFlags.flagNeedsUpdateSpec,
      FetchFlags.screen_width, FetchFlags.screen_height]
    by_cases hw : w = 800
    · by_cases hh : hgt = 480
      · subst hw
        subst hh
        by_cases hn : 2 * nw < 800 * 480
        · simp [hn]
          omega
        · simp [hn]
          omega
      · simp [hw, hh]
    · simp [hw]

/-- C3: the flag is re-fetched iff the specification's cache condition
holds (file missing, unreadable, wrong resolution, or under half the
pixels non-white); when the condition fails, the only effect for the
country is rewriting its metadata JSON, with no flag request and no BMP
write. -/
theorem cache_update_policy (c : FetchFlags.Country)
    (h : c.failAt = FetchFlags.FailAt.never) :
    FetchFlags.flagNeedsUpdate c.cache = FetchFlags.flagNeedsUpdateSpec c.cache
  ∧ (FetchFlags.Ev.fetchFlag c.id ∈ (FetchFlags.processCountry c).1 ↔
      FetchFlags.flagNeedsUpdateSpec c.cache = true)
  ∧ (FetchFlags.flagNeedsUpdateSpec c.cache = false →
      (FetchFlags.processCountry c).1 = [FetchFlags.Ev.writeJson c.id] ∧
        FetchFlags.Ev.writeBmp c.id ∉ (FetchFlags.processCountry c).1) := by
  have heq := flagNeedsUpdate_eq_spec c.cache
  refine ⟨heq, ?_, ?_⟩
  · rw [← heq]
    cases hupd : FetchFlags.flagNeedsUpdate c.cache with
    | false => simp [FetchFlags.processCountry, h, hupd]
    | true => simp [FetchFlags.processCountry, h, hupd]
  · intro hspec
    rw [← heq] at hspec
    simp [FetchFlags.processCountry, h, hspec]

/-- C3 witness: a cached 800x480 flag whose pixels are mostly non-white
is left alone and only its metadata is rewritten. -/
theorem cache_update_policy_witness :
    (FetchFlags.processCountry
        ⟨"norway", FetchFlags.CacheState.cached ⟨800, 480, 300000⟩,
          FetchFlags.FailAt.never⟩).1 =
      [FetchFlags.Ev.writeJson "norway"] :=
  ((cache_update_policy
      ⟨"norway", FetchFlags.CacheState.cached ⟨800, 480, 300000⟩,
        FetchFlags.FailAt.never⟩ rfl).2.2 (by decide)).1

/-- C10: when the cached flag is valid (no update needed) and nothing
raises, the country's metadata JSON is still rewritten and its index
entry still appended; only the flag download and BMP write are skipped. -/
theorem cache_hit_writes_metadata (c : FetchFlags.Country)
    (h1 : FetchFlags.flagNeedsUpdate c.cache = false)
    (h2 : c.failAt = FetchFlags.FailAt.never) :
    (FetchFlags.processCountry c).1 = [FetchFlags.Ev.writeJson c.id]
  ∧ (FetchFlags.processCountry c).2 = some (c.id ++ ".json")
  ∧ FetchFlags.Ev.fetchFlag c.id ∉ (FetchFlags.processCountry c).1
  ∧ FetchFlags.Ev.writeBmp c.id ∉ (FetchFlags.processCountry c).1 := by
  simp [FetchFlags.processCountry, h1, h2]

/-- C10 witness: the metadata-rewrite theorem on a concrete country with a
valid cached flag. -/
theorem cache_hit_writes_metadata_witness :
    (FetchFlags.processCountry
        ⟨"peru", FetchFlags.CacheState.cached ⟨800, 480, 384000⟩,
          FetchFlags.FailAt.never⟩).2 = some "peru.json" :=
  (cache_hit_writes_metadata
      ⟨"peru", FetchFlags.CacheState.cached ⟨800, 480, 384000⟩,
        FetchFlags.FailAt.never⟩ (by decide) rfl).2.1

/-- The index entry produced by one country: none exactly when its
processing raises. -/
theorem processCountry_snd (c : FetchFlags.Country) :
    (FetchFlags.processCountry c).2 =
      if FetchFlags.raisesOn c then none else some (c.id ++ ".json") := by
  rcases c with ⟨i, s, fa⟩
  cases fa <;> by_cases hupd : FetchFlags.flagNeedsUpdate s <;>
    simp [FetchFlags.processCountry, FetchFlags.raisesOn, hupd]

/-- Every event a country's iteration performs touches only that
country's files. -/
theorem processCountry_events_id (c : FetchFlags.Country) :
    ∀ e ∈ (FetchFlags.processCountry c).1, FetchFlags.evId e = some c.id := by
  rcases c with ⟨i, s, fa⟩
  cases fa <;> by_cases hupd : FetchFlags.flagNeedsUpdate s <;>
    simp [FetchFlags.processCountry, hupd, FetchFlags.evId]

/-- C6: `index.json` is written exactly once, at the end of the run,
listing `<id>.json` for exactly the countries whose iteration did not
raise, in API order; a raising country contributes no index entry, and
every per-country event touches only that country's own files. -/
theorem fetch_error_containment (countries : List FetchFlags.Country) :
    (FetchFlags.runFetch countries).getLast? =
      some (FetchFlags.Ev.writeIndex (countries.filterMap fun c =>
        if FetchFlags.raisesOn c then none else some (c.id ++ ".json")))
  ∧ (∀ c, FetchFlags.raisesOn c = true → (FetchFlags.processCountry c).2 = none)
  ∧ (∀ c, ∀ e ∈ (FetchFlags.processCountry c).1,
      FetchFlags.evId e = some c.id) := by
  refine ⟨?_, ?_, fun c => processCountry_events_id c⟩
  · rw [FetchFlags.runFetch, List.getLast?_concat]
    have hentries : FetchFlags.successEntries countries =
        countries.filterMap fun c =>
          if FetchFlags.raisesOn c then none else some (c.id ++ ".json") := by
      unfold FetchFlags.successEntries
      congr 1
      funext c
      exact processCountry_snd c
    rw [hentries]
  · intro c hc
    rw [processCountry_snd c, if_pos hc]

/-- C6 witness: with a failing first country and a succeeding second one,
the final write is the index listing only the second country. -/
theorem fetch_error_containment_witness :
    (FetchFlags.runFetch
        [⟨"aa", FetchFlags.CacheState.missing, FetchFlags.FailAt.atFetch⟩,
          ⟨"bb", FetchFlags.CacheState.missing, FetchFlags.FailAt.never⟩]).getLast? =
      some (FetchFlags.Ev.writeIndex ["bb.json"]) :=
  (fetch_error_containment
      [⟨"aa", FetchFlags.CacheState.missing, FetchFlags.FailAt.atFetch⟩,
        ⟨"bb", FetchFlags.CacheState.missing, FetchFlags.FailAt.never⟩]).1.trans
    (by decide)

/-- Both rounding helpers of the thumbnail computation stay within any
bound `m` that dominates the exact quotient. -/
theorem roundAspect_le (p q m : Nat) (hq : 1 ≤ q) (hp : p ≤ m * q)
    (hm : 1 ≤ m) :
    FetchFlags.roundAspectH p q ≤ m ∧ FetchFlags.roundAspectW p q ≤ m := by
  have hmul : (m + 1) * q = m * q + q := by ring
  have h2 : p + q - 1 < (m + 1) * q := by omega
  have hc : (p + q - 1) / q ≤ m :=
    Nat.lt_succ_iff.mp ((Nat.div_lt_iff_lt_mul (by omega)).mpr h2)
  have hf : p / q ≤ (p + q - 1) / q := Nat.div_le_div_right (by omega)
  constructor
  · simp only [FetchFlags.roundAspectH]
    refine max_le ?_ hm
    split_ifs
    · exact le_trans hf hc
    · exact hc
  · simp only [FetchFlags.roundAspectW]
    refine max_le ?_ hm
    split_ifs
    · exact le_trans hf hc
    · exact hc

/-- C7: for any non-degenerate source image, the rendering pipeline
produces a canvas of exactly 800x480, a thumbnail fitting within the
canvas, and the centered paste offsets `((800 - w) / 2, (480 - h) / 2)`. -/
theorem render_fixed_canvas (w h : Nat) (hw : 1 ≤ w) (hh : 1 ≤ h) :
    (FetchFlags.renderFlag w h).canvasW = 800
  ∧ (FetchFlags.renderFlag w h).canvasH = 480
  ∧ (FetchFlags.renderFlag w h).thumbW ≤ 800
  ∧ (FetchFlags.renderFlag w h).thumbH ≤ 480
  ∧ (FetchFlags.renderFlag w h).x_offset =
      (800 - (FetchFlags.renderFlag w h).thumbW) / 2
  ∧ (FetchFlags.renderFlag w h).y_offset =
      (480 - (FetchFlags.renderFlag w h).thumbH) / 2 := by
  have hdims : (FetchFlags.thumbnailDims w h 800 480).1 ≤ 800 ∧
      (FetchFlags.thumbnailDims w h 800 480).2 ≤ 480 := by
    unfold FetchFlags.thumbnailDims
    split_ifs with h1 h2
    · exact ⟨h1.1, h1.2⟩
    · exact ⟨(roundAspect_le (480 * w) h 800 hh (by omega) (by omega)).1,
        le_refl 480⟩
    · exact ⟨le_refl 800,
        (roundAspect_le (800 * h) w 480 hw (by omega) (by omega)).2⟩
  exact ⟨rfl, rfl, hdims.1, hdims.2, rfl, rfl⟩

/-- C7 witness: the pipeline on a 1600x1200 source image. -/
theorem render_fixed_canvas_witness :
    (FetchFlags.renderFlag 1600 1200).thumbW ≤ 800 :=
  (render_fixed_canvas 1600 1200 (by decide) (by decide)).2.2.1
